import Mathlib

/-!
Verification of the APK namespace analyzer (`namespace-analyzer.py`).

The development shallowly embeds the program's core functions:

* `extract_namespaces` — recursive derivation of dotted namespace prefixes
  from a directory tree (source lines 14–25);
* the identity regex `^([^-]+)-?(\d*)?-(\d{4}_\d{2}_\d{2})\.apk$` compiled
  with `re.IGNORECASE` (source lines 62–64), embedded as a small
  backtracking regular-expression matcher with capture groups that follows
  the leftmost-greedy semantics of Python's `re` engine;
* `convert_to_jar` — the dex2jar adapter (source lines 28–36), with the
  external process's outcome (exit code / combined output / timeout)
  supplied as data;
* `process_apk` / `process_apks` — the per-item pipeline and the batch
  loop (source lines 39–80), modelled as trace-producing state
  transformers over an explicit database value, with the filesystem and
  subprocess effects of each item supplied as an `ItemBehavior`;
* `insert_apk` / `insert_namespaces` — the persistence sink
  (source lines 83–106);
* `main` — init, batch, single commit (source lines 200–205).

Python `set` values are modelled as duplicate-free lists; membership is
the semantic content, iteration order of a Python set is arbitrary.
-/

namespace ApkAnalyzer

/-! ## Directory trees and the namespace extractor -/

/-- An entry of a directory tree: a file (ignored by the extractor) or a
subdirectory with its own entries.  `os.listdir` enumerates the entries of
one directory; `os.path.isdir` distinguishes the two cases. -/
inductive FS where
  | file (name : String) : FS
  | dir (name : String) (children : List FS) : FS
deriving Repr

/-- Adding an element to a Python set: no-op when already present. -/
def setAdd (s : List String) (x : String) : List String :=
  if x ∈ s then s else s ++ [x]

/-- Union of two Python sets (`namespaces.union(sub_namespaces)`). -/
def setUnion (s t : List String) : List String :=
  t.foldl setAdd s

/-- Shallow embedding of `extract_namespaces(source_path, base_namespace)`
(source lines 14–25): for each directory entry `entry`, add
`base_namespace + entry` and union in the recursive extraction with base
`base_namespace + entry + '.'`; files contribute nothing. -/
def extract_namespaces : List FS → String → List String
  | [], _ => []
  | .file _ :: rest, base => extract_namespaces rest base
  | .dir nm ch :: rest, base =>
      let newNs := base ++ nm
      setUnion (setAdd (extract_namespaces ch (newNs ++ ".")) newNs)
        (extract_namespaces rest base)

/-- Dot-joining of a nonempty sequence of directory names (the spec's
"dot-joined sequence of directory names"). -/
def joinDots : List String → String
  | [] => ""
  | [x] => x
  | x :: xs => x ++ "." ++ joinDots xs

/-- Modelled from the spec's words, for comparison with
`extract_namespaces`: the sequences of directory names leading from the
root down to each directory at every depth strictly beneath the root. -/
def dirSeqs : List FS → List (List String)
  | [] => []
  | .file _ :: rest => dirSeqs rest
  | .dir nm ch :: rest =>
      ([nm] :: (dirSeqs ch).map (fun p => nm :: p)) ++ dirSeqs rest

/-! ## The identity regex

Embedding of `re.compile('^([^-]+)-?(\d*)?-(\d{4}_\d{2}_\d{2})\.apk$',
re.IGNORECASE)` followed by `.match(name)` (source lines 62–64, 72).

The fragment of regular expressions the pattern uses — character classes,
case-insensitive literals, greedy `*` over a class, greedy `?`, capture
groups and concatenation — is embedded as `RE`, and `matchRE` implements
the leftmost-greedy backtracking search of Python's `re` engine in
continuation-passing style.  `(\d*)?` behaves exactly like `(\d*)`: the
greedy outer `?` first tries the group, whose body can match the empty
string, and the skip branch resumes at the same position, so it is
embedded as the plain group.  `\d` is embedded as the ASCII digit class
(the claims quantify over ASCII digit characters only). -/

/-- Capture groups 1–3 of the identity pattern (Python: empty string when a
group matched the empty string). -/
structure Caps where
  g1 : List Char := []
  g2 : List Char := []
  g3 : List Char := []
deriving Repr, DecidableEq

/-- Writing a capture group by its number. -/
def setCap (n : Nat) (v : List Char) (g : Caps) : Caps :=
  match n with
  | 1 => { g with g1 := v }
  | 2 => { g with g2 := v }
  | 3 => { g with g3 := v }
  | _ => g

/-- The regular-expression fragment used by the identity pattern. -/
inductive RE where
  | cls (p : Char → Bool)      : RE  -- one character of a class, e.g. `[^-]` or `\d`
  | lit (c : Char)             : RE  -- a literal character, case-insensitive (re.IGNORECASE)
  | seq (a b : RE)             : RE
  | starCls (p : Char → Bool)  : RE  -- greedy Kleene star of a class, e.g. `[^-]*`, `\d*`
  | opt (r : RE)               : RE  -- greedy `r?`
  | grp (n : Nat) (r : RE)     : RE  -- capture group number `n`

/-- Backtracking engine of a greedy class star: the maximal run has already
been consumed (held reversed in `rc`); try the continuation, then give back
one consumed character at a time. -/
def starGo (k : List Char → Caps → Option α) :
    List Char → List Char → Caps → Option α
  | rc, rest, g =>
    match k rest g with
    | some r => some r
    | none =>
      match rc with
      | [] => none
      | c :: rc2 => starGo k rc2 (c :: rest) g

/-- Leftmost-greedy backtracking matcher with capture groups, in
continuation-passing style; `re.IGNORECASE` makes literals compare
case-insensitively. -/
def matchRE : RE → List Char → Caps → (List Char → Caps → Option α) → Option α
  | .cls p, s, g, k =>
    match s with
    | [] => none
    | c :: rest => if p c then k rest g else none
  | .lit c, s, g, k =>
    match s with
    | [] => none
    | d :: rest => if d.toLower = c.toLower then k rest g else none
  | .seq a b, s, g, k => matchRE a s g (fun s2 g2 => matchRE b s2 g2 k)
  | .starCls p, s, g, k => starGo k (s.takeWhile p).reverse (s.dropWhile p) g
  | .opt r, s, g, k =>
    match matchRE r s g k with
    | some res => some res
    | none => k s g
  | .grp n r, s, g, k =>
    matchRE r s g (fun s2 g2 => k s2 (setCap n (s.take (s.length - s2.length)) g2))

/-- Class `[^-]`. -/
def notHyphen (c : Char) : Bool := c ≠ '-'

/-- Class `\d` (ASCII digits). -/
def isDigitCh (c : Char) : Bool := c.isDigit

/-- Subpattern `(\d{4}_\d{2}_\d{2})` body. -/
def dateRE : RE :=
  .seq (.cls isDigitCh) (.seq (.cls isDigitCh) (.seq (.cls isDigitCh)
    (.seq (.cls isDigitCh) (.seq (.lit '_') (.seq (.cls isDigitCh)
      (.seq (.cls isDigitCh) (.seq (.lit '_')
        (.seq (.cls isDigitCh) (.cls isDigitCh)))))))))

/-- Subpattern `\.apk`. -/
def sfxRE : RE :=
  .seq (.lit '.') (.seq (.lit 'a') (.seq (.lit 'p') (.lit 'k')))

/-- Subpattern `-(\d{4}_\d{2}_\d{2})\.apk`. -/
def tail3 : RE := .seq (.lit '-') (.seq (.grp 3 dateRE) sfxRE)

/-- Subpattern `(\d*)?-(\d{4}_\d{2}_\d{2})\.apk`. -/
def tail2 : RE := .seq (.opt (.grp 2 (.starCls isDigitCh))) tail3

/-- Subpattern `-?(\d*)?-(\d{4}_\d{2}_\d{2})\.apk`. -/
def tail1 : RE := .seq (.opt (.lit '-')) tail2

/-- The identity pattern `([^-]+)-?(\d*)?-(\d{4}_\d{2}_\d{2})\.apk` (the
anchors `^`/`$` are enforced by `apkMatch0`); `[^-]+` is
`[^-][^-]*`. -/
def apkRE : RE :=
  .seq (.grp 1 (.seq (.cls notHyphen) (.starCls notHyphen))) tail1

/-- Result of a successful `apk_regex.match(name)`: `g0` is `group(0)`
(the whole matched text), `g1`–`g3` are `group(1)`–`group(3)`. -/
structure Caps0 where
  g0 : List Char
  g1 : List Char
  g2 : List Char
  g3 : List Char
deriving Repr, DecidableEq

/-- Continuation enforcing the `$` anchor: Python's `$` accepts the end of
the string or a position just before a single trailing newline. -/
def kEnd : List Char → Caps → Option (Caps × List Char) :=
  fun s g => if s = [] ∨ s = ['\n'] then some (g, s) else none

/-- Embedding of `apk_regex.match(name)`: the match is anchored at the
start (`^` together with `re.match`) and at the end by `kEnd`;
`group(0)` is the text up to the match end. -/
def apkMatch0 (name : List Char) : Option Caps0 :=
  match matchRE apkRE name {} kEnd with
  | none => none
  | some (g, rest) =>
      some ⟨name.take (name.length - rest.length), g.g1, g.g2, g.g3⟩

/-- Character list `YYYY_MM_DD` of a date match. -/
def dateChars (y1 y2 y3 y4 m1 m2 d1 d2 : Char) : List Char :=
  [y1, y2, y3, y4, '_', m1, m2, '_', d1, d2]

/-! ## The converter adapter -/

/-- Outcome of the external dex2jar invocation
(`subprocess.check_output(cmd, stderr=subprocess.STDOUT, timeout=60)`):
either the 60-unit wall-clock timeout fires, or the process exits with a
code and a combined standard output/error stream. -/
inductive ConvOutcome where
  | timedOut : ConvOutcome
  | exited (code : Nat) (output : List Char) : ConvOutcome
deriving Repr, DecidableEq

/-- The two exception kinds raised by `convert_to_jar` and caught by
`process_apk`: `subprocess.CalledProcessError` and
`subprocess.TimeoutExpired`. -/
inductive ConvErr where
  | processError : ConvErr
  | timeoutExpired : ConvErr
deriving Repr, DecidableEq

/-- The dex2jar silent-failure diagnostic marker string tested by
`convert_to_jar` (source line 33). -/
def marker : List Char := "Detail Error Information in File".data

/-- Substring test, embedding Python's `in` on the captured output. -/
def containsSub (pat : List Char) : List Char → Bool
  | [] => pat.isEmpty
  | c :: t => pat.isPrefixOf (c :: t) || containsSub pat t

/-- Shallow embedding of `convert_to_jar(dex2jar_path, directory)` (source
lines 28–36): `subprocess.check_output` raises `CalledProcessError` on a
non-zero exit and `TimeoutExpired` on timeout; on a zero exit the combined
output is searched for the diagnostic marker and `CalledProcessError` is
raised when found; otherwise the deterministic path
`os.path.join(directory, 'classes.jar')` is returned.  The behaviour of
the external process is supplied as `outcome`. -/
def convert_to_jar (outcome : ConvOutcome) (directory : String) :
    Except ConvErr String :=
  match outcome with
  | .timedOut => .error .timeoutExpired
  | .exited code output =>
      if code ≠ 0 then .error .processError
      else if containsSub marker output then .error .processError
      else .ok (directory ++ "/classes.jar")

/-! ## The persistence sink -/

/-- Row of the `apks` table: `(id, date, filename)`. -/
abbrev ApkRow := String × String × String

/-- Row of the `namespaces` table: `(apk_id, body)`. -/
abbrev NsRow := String × String

/-- The two append-only tables created by `init_database`. -/
structure DB where
  apks : List ApkRow
  namespaces : List NsRow
deriving Repr, DecidableEq

/-- The freshly created store (empty tables). -/
def emptyDB : DB := ⟨[], []⟩

/-- The fixed parameterized SQL template of `insert_apk` (source lines
100–104); the values are bound as parameters, never concatenated into the
statement text. -/
def insert_apk_sql : String :=
  "INSERT INTO apks (id, date, filename) VALUES(?, ?, ?)"

/-- The fixed parameterized SQL template of `insert_namespaces` (source
lines 88–92). -/
def insert_namespaces_sql : String :=
  "INSERT INTO namespaces (apk_id, body) VALUES(?, ?)"

/-- The statement issued by `insert_apk(config, match)`: the constant
template with the parameter tuple
`(match.group(1), match.group(3), match.group(0))`. -/
def insert_apk_stmt (m : Caps0) : String × List String :=
  (insert_apk_sql, [String.mk m.g1, String.mk m.g3, String.mk m.g0])

/-- Effect of `insert_apk(config, match)` on the store (source lines
97–106): one row `(id, date, filename)` appended to `apks`. -/
def insert_apk (db : DB) (m : Caps0) : DB :=
  { db with
      apks := db.apks ++ [(String.mk m.g1, String.mk m.g3, String.mk m.g0)] }

/-- The statements issued by `insert_namespaces(config, apk_id,
namespaces)`: one parameterized insert per namespace. -/
def insert_namespaces_stmts (apk_id : String) (nss : List String) :
    List (String × List String) :=
  nss.map (fun ns => (insert_namespaces_sql, [apk_id, ns]))

/-- Effect of `insert_namespaces(config, apk_id, namespaces)` on the store
(source lines 83–94): one row `(apk_id, body)` appended per element. -/
def insert_namespaces (db : DB) (apk_id : String) (nss : List String) : DB :=
  { db with namespaces := db.namespaces ++ nss.map (fun ns => (apk_id, ns)) }

/-! ## The per-item pipeline and the batch loop -/

/-- A per-item container extraction exception (`zipfile.BadZipFile`, a
missing `classes.dex` member, an unreadable file); `process_apk` does not
catch these. -/
structure Exc where
  msg : String
deriving Repr, DecidableEq

/-- Environment-determined behaviour of processing one item: the outcome
of opening the container and extracting `classes.dex`, the outcome of the
dex2jar subprocess, and the outcome of extracting `classes.jar` (on
success, the directory tree of the scratch directory over which
`extract_namespaces` then runs). -/
structure ItemBehavior where
  dexOutcome : Option Exc
  convOutcome : ConvOutcome
  jarOutcome : Except Exc (List FS)

/-- Observable events of a batch run, in order.  `dbUpdate` and
`dbDelete` exist in the event alphabet so that the append-only property
is expressible; the embedded code never emits them, as the source issues
only `INSERT` statements. -/
inductive Ev where
  | skipped (name : String) : Ev
  | dbInsertApk (id date filename : String) : Ev
  | dbInsertNs (apk_id body : String) : Ev
  | dbUpdate : Ev
  | dbDelete : Ev
  | tmpCreate : Ev
  | extractDex : Ev
  | convertCall : Ev
  | jarExtract : Ev
  | tmpRemove : Ev
  | commit : Ev
deriving Repr, DecidableEq

/-- Shallow embedding of `process_apk(config, apk_path)` (source lines
39–59) as a trace of events plus a result.  The
`with tempfile.TemporaryDirectory(...)` block creates the scratch
directory, runs the body, and removes the directory on every exit path:
normal return, the early `return []` when a converter error is caught,
and an uncaught extraction exception (re-raised after cleanup). -/
def process_apk (tmp : String) (b : ItemBehavior) :
    List Ev × Except Exc (List String) :=
  let body : List Ev × Except Exc (List String) :=
    match b.dexOutcome with
    | some e => ([.extractDex], .error e)
    | none =>
      match convert_to_jar b.convOutcome tmp with
      | .error _ => ([.extractDex, .convertCall], .ok [])
      | .ok _jar =>
        match b.jarOutcome with
        | .error e => ([.extractDex, .convertCall, .jarExtract], .error e)
        | .ok tree =>
            ([.extractDex, .convertCall, .jarExtract],
             .ok (extract_namespaces tree ""))
  (.tmpCreate :: body.1 ++ [.tmpRemove], body.2)

/-- One directory entry of the input path together with the
environment-determined behaviour of processing it. -/
structure Entry where
  name : String
  isFile : Bool
  behavior : ItemBehavior

/-- Scratch directory name the model passes to `process_apk` (the real
name is generated fresh by `tempfile` inside the working directory). -/
def tmpName : String := "tmp"

/-- Shallow embedding of one iteration of the `process_apks` loop body
(source lines 69–80): match the name against the identity regex; for a
matching regular file, record the identity row (`insert_apk`), run
`process_apk`, and on its normal return record the namespace rows
(`insert_namespaces`); an exception raised inside `process_apk`
propagates, as the loop has no `try`.  Non-matching or non-file entries
are only reported. -/
def processEntry (e : Entry) (db : DB) : List Ev × DB × Option Exc :=
  match apkMatch0 e.name.data, e.isFile with
  | some m, true =>
      let db1 := insert_apk db m
      let evIns : Ev :=
        .dbInsertApk (String.mk m.g1) (String.mk m.g3) (String.mk m.g0)
      let tr := process_apk tmpName e.behavior
      match tr.2 with
      | .error exc => (evIns :: tr.1, db1, some exc)
      | .ok ns =>
          (evIns :: tr.1 ++ ns.map (fun b => .dbInsertNs (String.mk m.g1) b),
           insert_namespaces db1 (String.mk m.g1) ns, none)
  | _, _ => ([.skipped e.name], db, none)

/-- Shallow embedding of the `process_apks` loop (source lines 62–80):
entries are processed in listing order; an uncaught per-item exception
aborts the remainder of the loop. -/
def process_apks : List Entry → DB → List Ev × DB × Option Exc
  | [], db => ([], db, none)
  | e :: rest, db =>
      match processEntry e db with
      | (tr, db1, some exc) => (tr, db1, some exc)
      | (tr, db1, none) =>
          match process_apks rest db1 with
          | (tr2, db2, exc2) => (tr ++ tr2, db2, exc2)

/-- Shallow embedding of `main()` (source lines 200–205): initialize the
store, run the batch over the listed entries, then `config.db.commit()`
exactly once.  The returned `DB` is the durably committed store: when the
batch raises, the process dies before the commit line and nothing is
persisted. -/
def main_model (entries : List Entry) : List Ev × DB :=
  match process_apks entries emptyDB with
  | (tr, _, some _) => (tr, emptyDB)
  | (tr, db, none) => (tr ++ [.commit], db)

/-! ## Theorems -/

theorem mem_setAdd {s : List String} {x y : String} :
    y ∈ setAdd s x ↔ y ∈ s ∨ y = x := by
  unfold setAdd
  by_cases h : x ∈ s <;> simp [h]
  intro h1
  rw [h1]
  exact h

theorem mem_setUnion {s t : List String} {y : String} :
    y ∈ setUnion s t ↔ y ∈ s ∨ y ∈ t := by
  induction t generalizing s with
  | nil => simp [setUnion]
  | cons a t ih =>
      simp only [setUnion, List.foldl_cons]
      rw [show List.foldl setAdd (setAdd s a) t = setUnion (setAdd s a) t from rfl, ih]
      simp [mem_setAdd, List.mem_cons]
      tauto

theorem dirSeqs_ne_nil {fs : List FS} {p : List String} (h : p ∈ dirSeqs fs) :
    p ≠ [] := by
  induction fs with
  | nil => simp [dirSeqs] at h
  | cons e rest ih =>
      cases e with
      | file nm => exact ih (by simpa [dirSeqs] using h)
      | dir nm ch =>
          simp only [dirSeqs, List.mem_append, List.mem_cons, List.mem_map] at h
          rcases h with (rfl | ⟨q, _, rfl⟩) | h
          · simp
          · simp
          · exact ih h

theorem joinDots_cons (nm : String) {q : List String} (h : q ≠ []) :
    joinDots (nm :: q) = nm ++ "." ++ joinDots q := by
  cases q with
  | nil => exact absurd rfl h
  | cons a as => rfl

theorem mem_extract_namespaces (fs : List FS) (base : String) (y : String) :
    y ∈ extract_namespaces fs base ↔ ∃ p ∈ dirSeqs fs, y = base ++ joinDots p := by
  induction fs, base using extract_namespaces.induct with
  | case1 base => simp [extract_namespaces, dirSeqs]
  | case2 nmf rest base ih =>
      simpa [extract_namespaces, dirSeqs] using ih
  | case3 nm ch rest base nn ih1 ih2 =>
      simp only [nn] at ih1
      simp only [extract_namespaces, dirSeqs, mem_setUnion, mem_setAdd, ih1, ih2,
        List.mem_append, List.mem_cons, List.mem_map]
      constructor
      · rintro ((⟨q, hq, rfl⟩ | rfl) | ⟨p, hp, rfl⟩)
        · refine ⟨nm :: q, Or.inl (Or.inr ⟨q, hq, rfl⟩), ?_⟩
          rw [joinDots_cons nm (dirSeqs_ne_nil hq)]
          simp [String.append_assoc]
        · exact ⟨[nm], Or.inl (Or.inl rfl), by simp [joinDots]⟩
        · exact ⟨p, Or.inr hp, rfl⟩
      · rintro ⟨p, (rfl | ⟨q, hq, rfl⟩) | hp, rfl⟩
        · exact Or.inl (Or.inr (by simp [joinDots]))
        · refine Or.inl (Or.inl ⟨q, hq, ?_⟩)
          rw [joinDots_cons nm (dirSeqs_ne_nil hq)]
          simp [String.append_assoc]
        · exact Or.inr ⟨p, hp, rfl⟩

theorem nodup_setAdd {s : List String} {x : String} (h : s.Nodup) :
    (setAdd s x).Nodup := by
  unfold setAdd
  split
  · exact h
  · simp [List.nodup_append, h, *]

theorem nodup_setUnion {s t : List String} (h : s.Nodup) :
    (setUnion s t).Nodup := by
  induction t generalizing s with
  | nil => exact h
  | cons a t ih =>
      simp only [setUnion, List.foldl_cons]
      exact ih (nodup_setAdd h)

theorem nodup_extract_namespaces (fs : List FS) (base : String) :
    (extract_namespaces fs base).Nodup := by
  induction fs, base using extract_namespaces.induct with
  | case1 base => simp [extract_namespaces]
  | case2 nmf rest base ih => simpa [extract_namespaces] using ih
  | case3 nm ch rest base nn ih1 ih2 =>
      simp only [extract_namespaces]
      exact nodup_setUnion (nodup_setAdd ih1)

theorem take_len_app (a b : List Char) : (a ++ b).take a.length = a := by
  induction a with
  | nil => rfl
  | cons c a ih => simp [ih]

theorem take_sub_len (a b : List Char) :
    (a ++ b).take ((a ++ b).length - b.length) = a := by
  rw [List.length_append]
  have h : a.length + b.length - b.length = a.length := by omega
  rw [h, take_len_app]

theorem takeWhile_nil_dropWhile {p : Char → Bool} {b : List Char}
    (h : b.takeWhile p = []) : b.dropWhile p = b := by
  cases b with
  | nil => rfl
  | cons c bs =>
      by_cases hc : p c
      · simp [List.takeWhile_cons, hc] at h
      · simp [List.dropWhile_cons, hc]

theorem takeWhile_app_eq {p : Char → Bool} {a b : List Char}
    (h1 : ∀ c ∈ a, p c = true) (h2 : b.takeWhile p = []) :
    (a ++ b).takeWhile p = a ∧ (a ++ b).dropWhile p = b := by
  induction a with
  | nil => exact ⟨h2, takeWhile_nil_dropWhile h2⟩
  | cons c a ih =>
      have hc : p c = true := h1 c (by simp)
      have hr := ih (fun d hd => h1 d (by simp [hd]))
      simp [List.takeWhile_cons, List.dropWhile_cons, hc, hr.1, hr.2]

theorem starGo_hit {α : Type} {k : List Char → Caps → Option α}
    {rest : List Char} {g : Caps} {r : α} (h : k rest g = some r)
    (rc : List Char) : starGo k rc rest g = some r := by
  cases rc <;> simp [starGo, h]

theorem starGo_none {α : Type} {k : List Char → Caps → Option α} :
    ∀ (rc rest : List Char) (g : Caps),
      (∀ j, j ≤ rc.length → k ((rc.take j).reverse ++ rest) g = none) →
      starGo k rc rest g = none := by
  intro rc
  induction rc with
  | nil =>
      intro rest g h
      have h0 := h 0 (by simp)
      simp only [List.take_zero, List.reverse_nil, List.nil_append] at h0
      simp [starGo, h0]
  | cons c rc2 ih =>
      intro rest g h
      have h0 := h 0 (by simp)
      simp only [List.take_zero, List.reverse_nil, List.nil_append] at h0
      simp only [starGo, h0]
      refine ih (c :: rest) g (fun j hj => ?_)
      have := h (j + 1) (by simpa using hj)
      simpa [List.take_succ_cons, List.reverse_cons, List.append_assoc] using this

theorem toLower_eq_self_of_isDigit {c : Char} (h : c.isDigit = true) :
    c.toLower = c := by
  simp only [Char.isDigit, Bool.and_eq_true, decide_eq_true_eq] at h
  obtain ⟨h1, h2⟩ := h
  have h2n : c.val.toNat ≤ 57 := @UInt32.toNat_le_of_le c.val 57 (by decide) h2
  unfold Char.toLower
  rw [if_neg]
  rintro ⟨h65, _⟩
  simp only [Char.toNat] at h65
  omega

theorem ne_hyphen_of_isDigit {c : Char} (h : c.isDigit = true) : c ≠ '-' := by
  rintro rfl
  simp [Char.isDigit] at h

theorem toLower_ne_hyphen_of_isDigit {c : Char} (h : c.isDigit = true) :
    ¬ c.toLower = '-' := by
  rw [toLower_eq_self_of_isDigit h]
  exact ne_hyphen_of_isDigit h

theorem matchRE_seq {α : Type} (a b : RE) (s : List Char) (g : Caps)
    (k : List Char → Caps → Option α) :
    matchRE (.seq a b) s g k = matchRE a s g (fun s2 g2 => matchRE b s2 g2 k) := rfl

theorem matchRE_lit_cons {α : Type} (c d : Char) (s : List Char) (g : Caps)
    (k : List Char → Caps → Option α) :
    matchRE (.lit c) (d :: s) g k
      = if d.toLower = c.toLower then k s g else none := rfl

theorem matchRE_cls_cons {α : Type} (p : Char → Bool) (c : Char)
    (s : List Char) (g : Caps) (k : List Char → Caps → Option α) :
    matchRE (.cls p) (c :: s) g k = if p c then k s g else none := rfl

theorem matchRE_opt {α : Type} (r : RE) (s : List Char) (g : Caps)
    (k : List Char → Caps → Option α) :
    matchRE (.opt r) s g k
      = match matchRE r s g k with
        | some res => some res
        | none => k s g := rfl

theorem matchRE_grp {α : Type} (n : Nat) (r : RE) (s : List Char) (g : Caps)
    (k : List Char → Caps → Option α) :
    matchRE (.grp n r) s g k
      = matchRE r s g
          (fun s2 g2 => k s2 (setCap n (s.take (s.length - s2.length)) g2)) := rfl

theorem matchRE_starCls {α : Type} (p : Char → Bool) (s : List Char)
    (g : Caps) (k : List Char → Caps → Option α) :
    matchRE (.starCls p) s g k
      = starGo k (s.takeWhile p).reverse (s.dropWhile p) g := rfl

theorem grp3_eval {α : Type} {y1 y2 y3 y4 m1 m2 d1 d2 : Char}
    (hy1 : y1.isDigit = true) (hy2 : y2.isDigit = true)
    (hy3 : y3.isDigit = true) (hy4 : y4.isDigit = true)
    (hm1 : m1.isDigit = true) (hm2 : m2.isDigit = true)
    (hd1 : d1.isDigit = true) (hd2 : d2.isDigit = true)
    (tail : List Char) (g : Caps) (k : List Char → Caps → Option α) :
    matchRE (.grp 3 dateRE) (dateChars y1 y2 y3 y4 m1 m2 d1 d2 ++ tail) g k
      = k tail (setCap 3 (dateChars y1 y2 y3 y4 m1 m2 d1 d2) g) := by
  have hcap := take_sub_len (dateChars y1 y2 y3 y4 m1 m2 d1 d2) tail
  simp only [dateChars, List.cons_append, List.nil_append, List.length_cons,
    List.length_append] at hcap ⊢
  simp [matchRE, dateRE, isDigitCh, hy1, hy2, hy3, hy4, hm1, hm2, hd1, hd2, hcap]

theorem sfx_eval {α : Type} {a1 a2 a3 : Char}
    (ha1 : a1.toLower = 'a') (ha2 : a2.toLower = 'p') (ha3 : a3.toLower = 'k')
    (tail : List Char) (g : Caps) (k : List Char → Caps → Option α) :
    matchRE sfxRE ('.' :: a1 :: a2 :: a3 :: tail) g k = k tail g := by
  simp [matchRE, sfxRE, ha1, ha2, ha3,
    show ('a').toLower = 'a' from by decide,
    show ('p').toLower = 'p' from by decide,
    show ('k').toLower = 'k' from by decide]

theorem tail3_eval {y1 y2 y3 y4 m1 m2 d1 d2 a1 a2 a3 : Char}
    (hy1 : y1.isDigit = true) (hy2 : y2.isDigit = true)
    (hy3 : y3.isDigit = true) (hy4 : y4.isDigit = true)
    (hm1 : m1.isDigit = true) (hm2 : m2.isDigit = true)
    (hd1 : d1.isDigit = true) (hd2 : d2.isDigit = true)
    (ha1 : a1.toLower = 'a') (ha2 : a2.toLower = 'p') (ha3 : a3.toLower = 'k')
    (g : Caps) :
    matchRE tail3
        ('-' :: (dateChars y1 y2 y3 y4 m1 m2 d1 d2 ++ ['.', a1, a2, a3])) g kEnd
      = some (setCap 3 (dateChars y1 y2 y3 y4 m1 m2 d1 d2) g, []) := by
  have hdate := grp3_eval hy1 hy2 hy3 hy4 hm1 hm2 hd1 hd2
    (['.', a1, a2, a3]) g
    (fun s2 g2 => matchRE sfxRE s2 g2 kEnd)
  simp only [tail3, matchRE_seq, matchRE_lit_cons]
  rw [if_pos trivial, hdate, sfx_eval ha1 ha2 ha3]
  simp [kEnd]

theorem tail3_fail {α : Type} {c : Char} (hc : ¬ c.toLower = '-')
    (s : List Char) (g : Caps) (k : List Char → Caps → Option α) :
    matchRE tail3 (c :: s) g k = none := by
  simp only [tail3, matchRE_seq, matchRE_lit_cons]
  rw [if_neg]
  simpa using hc

theorem isDigitCh_hyphen : isDigitCh '-' = false := by decide

theorem isDigitCh_underscore : isDigitCh '_' = false := by decide

theorem notlower_underscore : ¬ ('_').toLower = '-' := by decide

theorem tail2_hit_A {y1 y2 y3 y4 m1 m2 d1 d2 a1 a2 a3 : Char}
    (hy1 : y1.isDigit = true) (hy2 : y2.isDigit = true)
    (hy3 : y3.isDigit = true) (hy4 : y4.isDigit = true)
    (hm1 : m1.isDigit = true) (hm2 : m2.isDigit = true)
    (hd1 : d1.isDigit = true) (hd2 : d2.isDigit = true)
    (ha1 : a1.toLower = 'a') (ha2 : a2.toLower = 'p') (ha3 : a3.toLower = 'k')
    (g : Caps) :
    matchRE tail2
        ('-' :: (dateChars y1 y2 y3 y4 m1 m2 d1 d2 ++ ['.', a1, a2, a3])) g kEnd
      = some (setCap 3 (dateChars y1 y2 y3 y4 m1 m2 d1 d2) (setCap 2 [] g), []) := by
  have h3 := tail3_eval hy1 hy2 hy3 hy4 hm1 hm2 hd1 hd2 ha1 ha2 ha3
    (setCap 2 [] g)
  simp only [tail2, matchRE_seq, matchRE_opt, matchRE_grp, matchRE_starCls]
  rw [List.takeWhile_cons_of_neg (by simp [isDigitCh_hyphen]),
    List.dropWhile_cons_of_neg (by simp [isDigitCh_hyphen])]
  simp only [List.reverse_nil, starGo, Nat.sub_self, List.take_zero, h3]

theorem tail2_fail {y1 y2 y3 y4 m1 m2 d1 d2 a1 a2 a3 : Char}
    (hy1 : y1.isDigit = true) (hy2 : y2.isDigit = true)
    (hy3 : y3.isDigit = true) (hy4 : y4.isDigit = true)
    (g : Caps) :
    matchRE tail2 (dateChars y1 y2 y3 y4 m1 m2 d1 d2 ++ ['.', a1, a2, a3])
        g kEnd = none := by
  simp only [tail2, matchRE_seq, matchRE_opt, matchRE_grp, matchRE_starCls,
    dateChars, List.cons_append, List.nil_append]
  rw [List.takeWhile_cons_of_pos (by simp [isDigitCh, hy1]),
    List.takeWhile_cons_of_pos (by simp [isDigitCh, hy2]),
    List.takeWhile_cons_of_pos (by simp [isDigitCh, hy3]),
    List.takeWhile_cons_of_pos (by simp [isDigitCh, hy4]),
    List.takeWhile_cons_of_neg (by simp [isDigitCh_underscore]),
    List.dropWhile_cons_of_pos (by simp [isDigitCh, hy1]),
    List.dropWhile_cons_of_pos (by simp [isDigitCh, hy2]),
    List.dropWhile_cons_of_pos (by simp [isDigitCh, hy3]),
    List.dropWhile_cons_of_pos (by simp [isDigitCh, hy4]),
    List.dropWhile_cons_of_neg (by simp [isDigitCh_underscore])]
  rw [starGo_none]
  · exact tail3_fail (toLower_ne_hyphen_of_isDigit hy1) _ _ _
  · intro j hj
    simp only [List.length_reverse, List.length_cons, List.length_nil,
      Nat.zero_add, Nat.reduceAdd] at hj
    interval_cases j <;>
      simp [tail3_fail notlower_underscore,
        tail3_fail (toLower_ne_hyphen_of_isDigit hy1),
        tail3_fail (toLower_ne_hyphen_of_isDigit hy2),
        tail3_fail (toLower_ne_hyphen_of_isDigit hy3),
        tail3_fail (toLower_ne_hyphen_of_isDigit hy4)]

theorem tail2_hit_B {num : List Char} {y1 y2 y3 y4 m1 m2 d1 d2 a1 a2 a3 : Char}
    (hnumd : ∀ c ∈ num, c.isDigit = true)
    (hy1 : y1.isDigit = true) (hy2 : y2.isDigit = true)
    (hy3 : y3.isDigit = true) (hy4 : y4.isDigit = true)
    (hm1 : m1.isDigit = true) (hm2 : m2.isDigit = true)
    (hd1 : d1.isDigit = true) (hd2 : d2.isDigit = true)
    (ha1 : a1.toLower = 'a') (ha2 : a2.toLower = 'p') (ha3 : a3.toLower = 'k')
    (g : Caps) :
    matchRE tail2
        (num ++ '-' :: (dateChars y1 y2 y3 y4 m1 m2 d1 d2 ++ ['.', a1, a2, a3]))
        g kEnd
      = some (setCap 3 (dateChars y1 y2 y3 y4 m1 m2 d1 d2) (setCap 2 num g), []) := by
  have h3 := tail3_eval hy1 hy2 hy3 hy4 hm1 hm2 hd1 hd2 ha1 ha2 ha3
    (setCap 2 num g)
  have hsplit := @takeWhile_app_eq isDigitCh num
    ('-' :: (dateChars y1 y2 y3 y4 m1 m2 d1 d2 ++ ['.', a1, a2, a3]))
    (fun c hc => by simp [isDigitCh, hnumd c hc])
    (List.takeWhile_cons_of_neg (by simp [isDigitCh_hyphen]))
  have hcap := take_sub_len num
    ('-' :: (dateChars y1 y2 y3 y4 m1 m2 d1 d2 ++ ['.', a1, a2, a3]))
  simp only [tail2, matchRE_seq, matchRE_opt, matchRE_grp, matchRE_starCls,
    hsplit.1, hsplit.2]
  rw [starGo_hit]
  simp only [hcap, h3]

theorem tail1_case_A {y1 y2 y3 y4 m1 m2 d1 d2 a1 a2 a3 : Char}
    (hy1 : y1.isDigit = true) (hy2 : y2.isDigit = true)
    (hy3 : y3.isDigit = true) (hy4 : y4.isDigit = true)
    (hm1 : m1.isDigit = true) (hm2 : m2.isDigit = true)
    (hd1 : d1.isDigit = true) (hd2 : d2.isDigit = true)
    (ha1 : a1.toLower = 'a') (ha2 : a2.toLower = 'p') (ha3 : a3.toLower = 'k')
    (g : Caps) :
    matchRE tail1
        ('-' :: (dateChars y1 y2 y3 y4 m1 m2 d1 d2 ++ ['.', a1, a2, a3])) g kEnd
      = some (setCap 3 (dateChars y1 y2 y3 y4 m1 m2 d1 d2) (setCap 2 [] g), []) := by
  have hA := @tail2_fail y1 y2 y3 y4 m1 m2 d1 d2 a1 a2 a3 hy1 hy2 hy3 hy4 g
  have hB := tail2_hit_A hy1 hy2 hy3 hy4 hm1 hm2 hd1 hd2 ha1 ha2 ha3 g
  simp [tail1, matchRE_seq, matchRE_opt, matchRE_lit_cons, hA, hB]

theorem tail1_case_B {num : List Char} {y1 y2 y3 y4 m1 m2 d1 d2 a1 a2 a3 : Char}
    (hnumd : ∀ c ∈ num, c.isDigit = true)
    (hy1 : y1.isDigit = true) (hy2 : y2.isDigit = true)
    (hy3 : y3.isDigit = true) (hy4 : y4.isDigit = true)
    (hm1 : m1.isDigit = true) (hm2 : m2.isDigit = true)
    (hd1 : d1.isDigit = true) (hd2 : d2.isDigit = true)
    (ha1 : a1.toLower = 'a') (ha2 : a2.toLower = 'p') (ha3 : a3.toLower = 'k')
    (g : Caps) :
    matchRE tail1
        ('-' :: (num ++ '-' :: (dateChars y1 y2 y3 y4 m1 m2 d1 d2 ++ ['.', a1, a2, a3])))
        g kEnd
      = some (setCap 3 (dateChars y1 y2 y3 y4 m1 m2 d1 d2) (setCap 2 num g), []) := by
  have hB := tail2_hit_B hnumd hy1 hy2 hy3 hy4 hm1 hm2 hd1 hd2 ha1 ha2 ha3 g
  simp [tail1, matchRE_seq, matchRE_opt, matchRE_lit_cons, hB]

theorem grp1_consume {α : Type} {c0 : Char} {idt rest : List Char}
    (h0 : notHyphen c0 = true) (hidt : ∀ c ∈ idt, notHyphen c = true)
    (hrest : rest.takeWhile notHyphen = [])
    (g : Caps) (k : List Char → Caps → Option α) (r : α)
    (hk : k rest (setCap 1 (c0 :: idt) g) = some r) :
    matchRE (.grp 1 (.seq (.cls notHyphen) (.starCls notHyphen)))
      ((c0 :: idt) ++ rest) g k = some r := by
  have hsplit := @takeWhile_app_eq notHyphen idt rest hidt hrest
  have hcap := take_sub_len (c0 :: idt) rest
  simp only [List.cons_append] at hcap ⊢
  simp only [matchRE_grp, matchRE_seq, matchRE_cls_cons, h0, if_true,
    matchRE_starCls, hsplit.1, hsplit.2]
  apply starGo_hit
  rw [hcap]
  exact hk

/-- C2: for every filename of the form `<id>-<date>.apk` or
`<id>-<num>-<date>.apk` — where `<id>` is a non-empty run of characters
containing no hyphen, `<num>` is a non-empty run of digits, `<date>` has
the shape `YYYY_MM_DD`, and the `.apk` suffix is matched
case-insensitively — the identity regex of `process_apks` matches the
whole filename end-to-end and recovers exactly `<id>` as group 1, `<num>`
(empty when absent) as group 2, and `<date>` as group 3. -/
theorem identity_regex_ok
    (id num : List Char) (y1 y2 y3 y4 m1 m2 d1 d2 a1 a2 a3 : Char)
    (hid : id ≠ []) (hidh : ∀ c ∈ id, c ≠ '-')
    (hnum : num ≠ []) (hnumd : ∀ c ∈ num, c.isDigit = true)
    (hy1 : y1.isDigit = true) (hy2 : y2.isDigit = true)
    (hy3 : y3.isDigit = true) (hy4 : y4.isDigit = true)
    (hm1 : m1.isDigit = true) (hm2 : m2.isDigit = true)
    (hd1 : d1.isDigit = true) (hd2 : d2.isDigit = true)
    (ha1 : a1.toLower = 'a') (ha2 : a2.toLower = 'p') (ha3 : a3.toLower = 'k') :
    apkMatch0 (id ++ '-' :: (dateChars y1 y2 y3 y4 m1 m2 d1 d2 ++ ['.', a1, a2, a3]))
      = some ⟨id ++ '-' :: (dateChars y1 y2 y3 y4 m1 m2 d1 d2 ++ ['.', a1, a2, a3]),
          id, [], dateChars y1 y2 y3 y4 m1 m2 d1 d2⟩
  ∧ apkMatch0
        (id ++ '-' :: (num ++ '-' ::
          (dateChars y1 y2 y3 y4 m1 m2 d1 d2 ++ ['.', a1, a2, a3])))
      = some ⟨id ++ '-' :: (num ++ '-' ::
            (dateChars y1 y2 y3 y4 m1 m2 d1 d2 ++ ['.', a1, a2, a3])),
          id, num, dateChars y1 y2 y3 y4 m1 m2 d1 d2⟩ := by
  obtain ⟨c0, idt, rfl⟩ : ∃ c0 idt, id = c0 :: idt := by
    cases id with
    | nil => exact absurd rfl hid
    | cons a b => exact ⟨a, b, rfl⟩
  have h0 : notHyphen c0 = true := by simp [notHyphen, hidh c0 (by simp)]
  have hidt : ∀ c ∈ idt, notHyphen c = true := fun c hc => by
    simp [notHyphen, hidh c (by simp [hc])]
  constructor
  · have hk := tail1_case_A hy1 hy2 hy3 hy4 hm1 hm2 hd1 hd2 ha1 ha2 ha3
      (setCap 1 (c0 :: idt) {})
    have hmain := grp1_consume h0 hidt
      (List.takeWhile_cons_of_neg (by simp [notHyphen])) {}
      (fun s2 g2 => matchRE tail1 s2 g2 kEnd)
      (setCap 3 (dateChars y1 y2 y3 y4 m1 m2 d1 d2)
        (setCap 2 [] (setCap 1 (c0 :: idt) {})), [])
      hk
    unfold apkMatch0
    rw [show apkRE
        = .seq (.grp 1 (.seq (.cls notHyphen) (.starCls notHyphen))) tail1 from rfl,
      matchRE_seq, hmain]
    simp [setCap, dateChars]
  · have hk := tail1_case_B hnumd hy1 hy2 hy3 hy4 hm1 hm2 hd1 hd2 ha1 ha2 ha3
      (setCap 1 (c0 :: idt) {})
    have hmain := grp1_consume h0 hidt
      (List.takeWhile_cons_of_neg (by simp [notHyphen])) {}
      (fun s2 g2 => matchRE tail1 s2 g2 kEnd)
      (setCap 3 (dateChars y1 y2 y3 y4 m1 m2 d1 d2)
        (setCap 2 num (setCap 1 (c0 :: idt) {})), [])
      hk
    unfold apkMatch0
    rw [show apkRE
        = .seq (.grp 1 (.seq (.cls notHyphen) (.starCls notHyphen))) tail1 from rfl,
      matchRE_seq, hmain]
    simp [setCap, dateChars]

theorem containsSub_iff {pat hay : List Char} :
    containsSub pat hay = true ↔ pat <:+: hay := by
  induction hay with
  | nil =>
      simp [containsSub, List.isEmpty_iff]
  | cons c t ih =>
      simp [containsSub, ih, List.isPrefixOf_iff_prefix, List.infix_cons_iff]

/-- C4: the Converter Adapter signals failure in exactly three situations
and success otherwise: non-zero exit, timeout (signalled distinctly as
`timeoutExpired`), and zero exit with the diagnostic marker
`Detail Error Information in File` contained in the combined output; on
success it returns the path `classes.jar` inside the given working
directory. -/
theorem convert_to_jar_spec (dir : String) :
    (convert_to_jar .timedOut dir = .error .timeoutExpired)
  ∧ (∀ (code : Nat) (output : List Char), code ≠ 0 →
      convert_to_jar (.exited code output) dir = .error .processError)
  ∧ (∀ output : List Char, marker <:+: output →
      convert_to_jar (.exited 0 output) dir = .error .processError)
  ∧ (∀ (code : Nat) (output : List Char),
      convert_to_jar (.exited code output) dir = .ok (dir ++ "/classes.jar")
        ↔ (code = 0 ∧ ¬ marker <:+: output))
  ∧ (∀ out : ConvOutcome, (∃ e, convert_to_jar out dir = .error e)
        ↔ (out = .timedOut ∨
            ∃ c o, out = .exited c o ∧ (c ≠ 0 ∨ marker <:+: o)))
  ∧ ConvErr.timeoutExpired ≠ ConvErr.processError := by
  refine ⟨rfl, ?_, ?_, ?_, ?_, by simp⟩
  · intro code output hc
    simp [convert_to_jar, hc]
  · intro output h
    simp [convert_to_jar, containsSub_iff.mpr h]
  · intro code output
    by_cases hc : code = 0
    · subst hc
      by_cases hm : marker <:+: output
      · simp [convert_to_jar, containsSub_iff.mpr hm, hm]
      · simp [convert_to_jar, hm,
          show containsSub marker output = false from by
            rw [Bool.eq_false_iff]
            intro hcontra
            exact hm (containsSub_iff.mp hcontra)]
    · simp [convert_to_jar, hc]
  · intro out
    cases out with
    | timedOut => simp [convert_to_jar]
    | exited code output =>
        by_cases hc : code = 0
        · subst hc
          by_cases hm : marker <:+: output
          · simp only [convert_to_jar, containsSub_iff.mpr hm]
            simp only [ne_eq, not_true_eq_false, if_false, ite_true, if_pos]
            constructor
            · intro _
              exact Or.inr ⟨0, output, rfl, Or.inr hm⟩
            · intro _
              exact ⟨.processError, by simp⟩
          · simp [convert_to_jar, hm,
              show containsSub marker output = false from by
                rw [Bool.eq_false_iff]
                intro hcontra
                exact hm (containsSub_iff.mp hcontra)]
        · simp only [convert_to_jar, if_pos hc]
          constructor
          · intro _
            exact Or.inr ⟨code, output, rfl, Or.inl hc⟩
          · intro _
            exact ⟨.processError, rfl⟩

/-- Witness for `convert_to_jar_spec` at concrete inputs: a non-zero exit
and a zero exit carrying the marker both fail. -/
theorem convert_to_jar_spec_witness :
    convert_to_jar (.exited 1 "boom".data) "/tmp/w0" = .error .processError
  ∧ convert_to_jar (.exited 0 marker) "/tmp/w0" = .error .processError :=
  ⟨(convert_to_jar_spec "/tmp/w0").2.1 1 "boom".data (by decide),
   (convert_to_jar_spec "/tmp/w0").2.2.1 marker List.infix_rfl⟩

/-! ## Claim theorems -/

/-- C1: `extract_namespaces` called on the root with empty base returns
exactly the set of dot-joined directory-name sequences for every
directory at every depth strictly beneath the root, ignoring files; in
particular the tree `a/b`, `a/c` yields exactly `{a, a.b, a.c}`, and a
directory with no subdirectories yields the empty set. -/
theorem extract_namespaces_spec :
    (∀ (fs : List FS) (y : String),
        y ∈ extract_namespaces fs "" ↔ ∃ p ∈ dirSeqs fs, y = joinDots p)
  ∧ (∀ (fs : List FS) (base : String), (extract_namespaces fs base).Nodup)
  ∧ (extract_namespaces
        [FS.dir "a" [FS.dir "b" [], FS.dir "c" []]] "").toFinset
      = {"a", "a.b", "a.c"}
  ∧ (∀ nm : String, extract_namespaces [FS.file nm] "" = [])
  ∧ extract_namespaces [] "" = [] := by
  refine ⟨?_, nodup_extract_namespaces, ?_, ?_, by simp [extract_namespaces]⟩
  · intro fs y
    have h := mem_extract_namespaces fs "" y
    simpa using h
  · have h : extract_namespaces [FS.dir "a" [FS.dir "b" [], FS.dir "c" []]] ""
        = ["a.b", "a.c", "a"] := by
      simp [extract_namespaces, setAdd, setUnion]
    rw [h]
    decide
  · intro nm
    simp [extract_namespaces]

/-- Witness for `identity_regex_ok` at the concrete filenames
`app-2020_01_01.apk` and `app-7-2020_01_01.apk`. -/
theorem identity_regex_ok_witness :
    apkMatch0 (['a', 'p', 'p'] ++ '-' ::
        (dateChars '2' '0' '2' '0' '0' '1' '0' '1' ++ ['.', 'a', 'p', 'k']))
      = some ⟨['a', 'p', 'p'] ++ '-' ::
            (dateChars '2' '0' '2' '0' '0' '1' '0' '1' ++ ['.', 'a', 'p', 'k']),
          ['a', 'p', 'p'], [], dateChars '2' '0' '2' '0' '0' '1' '0' '1'⟩
  ∧ apkMatch0 (['a', 'p', 'p'] ++ '-' :: (['7'] ++ '-' ::
        (dateChars '2' '0' '2' '0' '0' '1' '0' '1' ++ ['.', 'a', 'p', 'k'])))
      = some ⟨['a', 'p', 'p'] ++ '-' :: (['7'] ++ '-' ::
            (dateChars '2' '0' '2' '0' '0' '1' '0' '1' ++ ['.', 'a', 'p', 'k'])),
          ['a', 'p', 'p'], ['7'], dateChars '2' '0' '2' '0' '0' '1' '0' '1'⟩ :=
  identity_regex_ok ['a', 'p', 'p'] ['7'] '2' '0' '2' '0' '0' '1' '0' '1' 'a' 'p' 'k'
    (by decide) (by decide) (by decide) (by decide)
    (by decide) (by decide) (by decide) (by decide)
    (by decide) (by decide) (by decide) (by decide)
    (by decide) (by decide) (by decide)

/-- C6: `insert_apk` appends exactly one row to `apks` whose id, date and
filename fields equal the parsed primary id (group 1), date (group 3) and
full matched filename (group 0); `insert_namespaces` appends exactly one
row per element of the set, carrying exactly the given package id and
namespace string; both issue a constant parameterized SQL template whose
parameters are the input values verbatim — so the stored values equal the
inputs even when they contain SQL metacharacters — and no other rows are
modified. -/
theorem persistence_sink_spec :
    (∀ (db : DB) (m : Caps0),
        insert_apk db m
          = ⟨db.apks ++ [(String.mk m.g1, String.mk m.g3, String.mk m.g0)],
             db.namespaces⟩
      ∧ (insert_apk_stmt m).1 = insert_apk_sql
      ∧ (insert_apk_stmt m).2
          = [String.mk m.g1, String.mk m.g3, String.mk m.g0])
  ∧ (∀ (db : DB) (apk_id : String) (nss : List String),
        insert_namespaces db apk_id nss
          = ⟨db.apks, db.namespaces ++ nss.map (fun ns => (apk_id, ns))⟩
      ∧ (insert_namespaces_stmts apk_id nss).length = nss.length
      ∧ ∀ st ∈ insert_namespaces_stmts apk_id nss,
          st.1 = insert_namespaces_sql ∧ ∃ ns ∈ nss, st.2 = [apk_id, ns]) := by
  refine ⟨fun db m => ⟨rfl, rfl, rfl⟩, fun db apk_id nss => ⟨rfl, ?_, ?_⟩⟩
  · simp [insert_namespaces_stmts]
  · intro st hst
    simp only [insert_namespaces_stmts, List.mem_map] at hst
    obtain ⟨ns, hns, rfl⟩ := hst
    exact ⟨rfl, ns, hns, rfl⟩

/-- Witness for `persistence_sink_spec` on values containing SQL
metacharacters: they are stored verbatim. -/
theorem persistence_sink_spec_witness :
    insert_apk emptyDB ⟨"x; DROP TABLE apks;--".data, "id-1".data, [],
        "2020_01_01".data⟩
      = ⟨[("id-1", "2020_01_01", "x; DROP TABLE apks;--")], []⟩
  ∧ insert_namespaces emptyDB "id-1" ["com; DELETE FROM apks", "com.a"]
      = ⟨[], [("id-1", "com; DELETE FROM apks"), ("id-1", "com.a")]⟩ :=
  ⟨(persistence_sink_spec.1 emptyDB
      ⟨"x; DROP TABLE apks;--".data, "id-1".data, [], "2020_01_01".data⟩).1,
   (persistence_sink_spec.2 emptyDB "id-1"
      ["com; DELETE FROM apks", "com.a"]).1⟩

/-- C7: the scratch working directory is removed by the time
`process_apk` finishes, on every exit path — for every behaviour (normal
completion, caught converter failure, propagating extraction exception),
the trace starts with the single creation and ends with the single
removal of the scratch directory. -/
theorem scratch_dir_cleanup (tmp : String) (b : ItemBehavior) :
    (process_apk tmp b).1.head? = some .tmpCreate
  ∧ (process_apk tmp b).1.getLast? = some .tmpRemove
  ∧ (process_apk tmp b).1.count .tmpRemove = 1
  ∧ (process_apk tmp b).1.count .tmpCreate = 1 := by
  rcases b with ⟨dex, conv, jar⟩
  cases dex with
  | some e => simp [process_apk]
  | none =>
      cases hc : convert_to_jar conv tmp with
      | error e => simp [process_apk, hc]
      | ok j =>
          cases jar with
          | error e => simp [process_apk, hc]
          | ok tree => simp [process_apk, hc]

/-- C9: a filename that does not match the identity pattern is classified
as not-a-package — the embedded classifier is a total function, so no
error is raised — and the orchestrator skips the entry, reports it as
ignored, leaves the store untouched, and continues with the remaining
entries. -/
theorem nonmatching_skipped (e : Entry) (db : DB) (rest : List Entry)
    (h : apkMatch0 e.name.data = none) :
    processEntry e db = ([.skipped e.name], db, none)
  ∧ process_apks (e :: rest) db
      = ((.skipped e.name) :: (process_apks rest db).1,
         (process_apks rest db).2.1, (process_apks rest db).2.2) := by
  have h1 : processEntry e db = ([.skipped e.name], db, none) := by
    simp [processEntry, h]
  refine ⟨h1, ?_⟩
  rcases hr : process_apks rest db with ⟨tr2, db2, exc2⟩
  simp [process_apks, h1, hr]

/-- Witness for `nonmatching_skipped`: a `README` file sitting in the
input directory is skipped. -/
theorem nonmatching_skipped_witness :
    processEntry ⟨"README", true, ⟨none, .exited 0 [], .ok []⟩⟩ emptyDB
      = ([.skipped "README"], emptyDB, none) :=
  (nonmatching_skipped ⟨"README", true, ⟨none, .exited 0 [], .ok []⟩⟩
    emptyDB [] (by decide)).1

/-- C5: for a batch entry with a matching filename (a regular file whose
`classes.dex` extraction succeeded) whose converter invocation fails, the
orchestrator still records that package's identity row, records zero
namespace rows for it, and proceeds to the next entries without aborting
the batch. -/
theorem converter_failure_isolated (e : Entry) (db : DB) (rest : List Entry)
    (m : Caps0) (cerr : ConvErr)
    (hm : apkMatch0 e.name.data = some m) (hf : e.isFile = true)
    (hdex : e.behavior.dexOutcome = none)
    (hconv : convert_to_jar e.behavior.convOutcome tmpName = .error cerr) :
    processEntry e db
      = ([.dbInsertApk (String.mk m.g1) (String.mk m.g3) (String.mk m.g0),
          .tmpCreate, .extractDex, .convertCall, .tmpRemove],
         insert_apk db m, none)
  ∧ (insert_apk db m).namespaces = db.namespaces
  ∧ process_apks (e :: rest) db
      = ([.dbInsertApk (String.mk m.g1) (String.mk m.g3) (String.mk m.g0),
          .tmpCreate, .extractDex, .convertCall, .tmpRemove]
           ++ (process_apks rest (insert_apk db m)).1,
         (process_apks rest (insert_apk db m)).2.1,
         (process_apks rest (insert_apk db m)).2.2) := by
  have h1 : processEntry e db
      = ([.dbInsertApk (String.mk m.g1) (String.mk m.g3) (String.mk m.g0),
          .tmpCreate, .extractDex, .convertCall, .tmpRemove],
         insert_apk db m, none) := by
    simp [processEntry, hm, hf, process_apk, hdex, hconv, insert_namespaces]
  refine ⟨h1, by simp [insert_apk], ?_⟩
  rcases hr : process_apks rest (insert_apk db m) with ⟨tr2, db2, exc2⟩
  simp [process_apks, h1, hr]

/-- Witness for `converter_failure_isolated`: the converter exits with a
non-zero code on `app-2020_01_01.apk`; the identity row is still recorded
and no namespace row is. -/
theorem converter_failure_isolated_witness :
    processEntry
        ⟨"app-2020_01_01.apk", true, ⟨none, .exited 1 "err".data, .ok []⟩⟩
        emptyDB
      = ([.dbInsertApk "app" "2020_01_01" "app-2020_01_01.apk",
          .tmpCreate, .extractDex, .convertCall, .tmpRemove],
         insert_apk emptyDB
           ⟨"app-2020_01_01.apk".data, "app".data, [], "2020_01_01".data⟩,
         none) :=
  (converter_failure_isolated
    ⟨"app-2020_01_01.apk", true, ⟨none, .exited 1 "err".data, .ok []⟩⟩
    emptyDB []
    ⟨"app-2020_01_01.apk".data, "app".data, [], "2020_01_01".data⟩
    .processError (by decide) rfl rfl rfl).1

/-- C3 counterexample: a batch whose first entry has a malformed container
(the container extraction raises) ends with that per-item error
propagating out of `process_apks`; the well-formed second entry is never
reached and the whole batch is aborted. -/
theorem extraction_error_aborts_batch :
    (process_apks
        [⟨"bad-2020_01_01.apk", true, ⟨some ⟨"zip error"⟩, .exited 0 [], .ok []⟩⟩,
         ⟨"good-2020_01_01.apk", true, ⟨none, .exited 0 [], .ok []⟩⟩]
        emptyDB).2.2 = some ⟨"zip error"⟩
  ∧ (process_apks
        [⟨"bad-2020_01_01.apk", true, ⟨some ⟨"zip error"⟩, .exited 0 [], .ok []⟩⟩,
         ⟨"good-2020_01_01.apk", true, ⟨none, .exited 0 [], .ok []⟩⟩]
        emptyDB).1.count (.skipped "good-2020_01_01.apk") = 0 := by
  constructor
  · decide
  · decide

/-- C3 amended: per-item containment holds exactly for converter
failures — `process_apk` catches `CalledProcessError` and
`TimeoutExpired`, turning them into an empty namespace set with the batch
continuing — while an extraction error (malformed or unreadable
container) is caught nowhere: processing an entry propagates an error
precisely when the entry is a matching regular file whose `classes.dex`
extraction raises, or whose conversion succeeds and whose archive
extraction raises; such an error aborts the remainder of the batch. -/
theorem per_item_error_policy (e : Entry) (db : DB) :
    ((processEntry e db).2.2 ≠ none
        ↔ (∃ m, apkMatch0 e.name.data = some m) ∧ e.isFile = true
          ∧ (e.behavior.dexOutcome ≠ none
              ∨ ((∃ j, convert_to_jar e.behavior.convOutcome tmpName
                    = Except.ok j)
                  ∧ (∃ xe, e.behavior.jarOutcome = Except.error xe))))
  ∧ (∀ rest : List Entry,
      process_apks (e :: rest) db
        = (if (processEntry e db).2.2 = none
           then ((processEntry e db).1
                   ++ (process_apks rest (processEntry e db).2.1).1,
                 (process_apks rest (processEntry e db).2.1).2.1,
                 (process_apks rest (processEntry e db).2.1).2.2)
           else processEntry e db)) := by
  rcases e with ⟨nm, isf, ⟨dex, conv, jar⟩⟩
  constructor
  · rcases hm : apkMatch0 nm.data with _ | m
    · simp [processEntry, hm]
    · cases isf with
      | false => simp [processEntry, hm]
      | true =>
          cases dex with
          | some xe => simp [processEntry, process_apk, hm]
          | none =>
              cases hc : convert_to_jar conv tmpName with
              | error ce => simp [processEntry, process_apk, hm, hc]
              | ok j =>
                  cases jar with
                  | error xe => simp [processEntry, process_apk, hm, hc]
                  | ok tree => simp [processEntry, process_apk, hm, hc]
  · intro rest
    rcases hpe : processEntry ⟨nm, isf, ⟨dex, conv, jar⟩⟩ db with ⟨tr, db1, exc⟩
    cases exc with
    | none =>
        rcases hr : process_apks rest db1 with ⟨tr2, db2, exc2⟩
        simp [process_apks, hpe, hr]
    | some xe => simp [process_apks, hpe]

/-- C8 counterexample: in a batch whose first entry's container is
malformed, the second entry is a regular file with a matching filename,
yet its identity row is never recorded — refuting "recorded exactly once"
for every batch entry. -/
theorem identity_record_counterexample :
    apkMatch0 "later-2020_01_01.apk".data ≠ none
  ∧ (process_apks
        [⟨"crash-2020_01_01.apk", true, ⟨some ⟨"boom"⟩, .exited 0 [], .ok []⟩⟩,
         ⟨"later-2020_01_01.apk", true, ⟨none, .exited 0 [], .ok []⟩⟩]
        emptyDB).1.count
          (.dbInsertApk "later" "2020_01_01" "later-2020_01_01.apk") = 0
  ∧ (process_apks
        [⟨"crash-2020_01_01.apk", true, ⟨some ⟨"boom"⟩, .exited 0 [], .ok []⟩⟩,
         ⟨"later-2020_01_01.apk", true, ⟨none, .exited 0 [], .ok []⟩⟩]
        emptyDB).2.1.apks
      = [("crash", "2020_01_01", "crash-2020_01_01.apk")] := by
  refine ⟨by decide, by decide, by decide⟩

/-- Every event of one entry's processing is an insert, a report or a
filesystem step: the embedded run never emits an update or delete
operation, matching the source, which issues only `INSERT` statements. -/
theorem processEntry_no_update_delete (e : Entry) (db : DB) :
    Ev.dbUpdate ∉ (processEntry e db).1 ∧ Ev.dbDelete ∉ (processEntry e db).1 := by
  rcases e with ⟨nm, isf, ⟨dex, conv, jar⟩⟩
  rcases hm : apkMatch0 nm.data with _ | m
  · simp [processEntry, hm]
  · cases isf with
    | false => simp [processEntry, hm]
    | true =>
        cases dex with
        | some xe => simp [processEntry, hm, process_apk]
        | none =>
            cases hc : convert_to_jar conv tmpName with
            | error ce => simp [processEntry, hm, process_apk, hc]
            | ok j =>
                cases jar with
                | error xe => simp [processEntry, hm, process_apk, hc]
                | ok tree => simp [processEntry, hm, process_apk, hc]

/-- C8 amended: for every batch entry that the orchestrator begins
processing (no earlier entry having aborted the batch) and that is a
regular file with a matching filename, the identity row is recorded
strictly before any scratch-directory, extraction or conversion event of
that entry, exactly once; it is never updated or deleted (the run emits
no update/delete operation at all); and every namespace row of the entry
is written strictly after its identity row. -/
theorem identity_first (e : Entry) (db : DB) (m : Caps0)
    (hm : apkMatch0 e.name.data = some m) (hf : e.isFile = true) :
    (processEntry e db).1.head?
        = some (.dbInsertApk (String.mk m.g1) (String.mk m.g3) (String.mk m.g0))
  ∧ (processEntry e db).1.countP
        (fun ev => match ev with | .dbInsertApk _ _ _ => true | _ => false) = 1
  ∧ (∀ ev ∈ (processEntry e db).1, ev ≠ .dbUpdate ∧ ev ≠ .dbDelete)
  ∧ (∀ (i : Nat) (a b : String),
        (processEntry e db).1[i]? = some (.dbInsertNs a b) → 0 < i)
  ∧ (processEntry e db).2.1.apks
      = db.apks ++ [(String.mk m.g1, String.mk m.g3, String.mk m.g0)] := by
  have hud0 := processEntry_no_update_delete e db
  have hud : ∀ ev ∈ (processEntry e db).1, ev ≠ .dbUpdate ∧ ev ≠ .dbDelete :=
    fun ev hev => ⟨fun h => hud0.1 (h ▸ hev), fun h => hud0.2 (h ▸ hev)⟩
  clear hud0
  rcases e with ⟨nm, isf, ⟨dex, conv, jar⟩⟩
  simp only at hm
  cases hf
  cases dex with
  | some xe =>
      have h1 : processEntry ⟨nm, true, ⟨some xe, conv, jar⟩⟩ db
          = ([.dbInsertApk (String.mk m.g1) (String.mk m.g3) (String.mk m.g0),
              .tmpCreate, .extractDex, .tmpRemove],
             insert_apk db m, some xe) := by
        simp [processEntry, hm, process_apk]
      rw [h1] at hud ⊢
      refine ⟨rfl, by simp [List.countP_cons, List.countP_nil], hud, ?_,
        by simp [insert_apk]⟩
      intro i a b hi
      match i with
      | 0 => simp at hi
      | n + 1 => exact Nat.succ_pos n
  | none =>
      cases hc : convert_to_jar conv tmpName with
      | error ce =>
          have h1 : processEntry ⟨nm, true, ⟨none, conv, jar⟩⟩ db
              = ([.dbInsertApk (String.mk m.g1) (String.mk m.g3) (String.mk m.g0),
                  .tmpCreate, .extractDex, .convertCall, .tmpRemove],
                 insert_namespaces (insert_apk db m) (String.mk m.g1) [], none) := by
            simp [processEntry, hm, process_apk, hc]
          rw [h1] at hud ⊢
          refine ⟨rfl, by simp [List.countP_cons, List.countP_nil], hud, ?_,
            by simp [insert_apk, insert_namespaces]⟩
          intro i a b hi
          match i with
          | 0 => simp at hi
          | n + 1 => exact Nat.succ_pos n
      | ok j =>
          cases jar with
          | error xe =>
              have h1 : processEntry ⟨nm, true, ⟨none, conv, .error xe⟩⟩ db
                  = ([.dbInsertApk (String.mk m.g1) (String.mk m.g3)
                        (String.mk m.g0),
                      .tmpCreate, .extractDex, .convertCall, .jarExtract,
                      .tmpRemove],
                     insert_apk db m, some xe) := by
                simp [processEntry, hm, process_apk, hc]
              rw [h1] at hud ⊢
              refine ⟨rfl, by simp [List.countP_cons, List.countP_nil], hud, ?_,
                by simp [insert_apk]⟩
              intro i a b hi
              match i with
              | 0 => simp at hi
              | n + 1 => exact Nat.succ_pos n
          | ok tree =>
              have h1 : processEntry ⟨nm, true, ⟨none, conv, .ok tree⟩⟩ db
                  = (.dbInsertApk (String.mk m.g1) (String.mk m.g3)
                        (String.mk m.g0)
                      :: ([.tmpCreate, .extractDex, .convertCall, .jarExtract,
                           .tmpRemove]
                          ++ (extract_namespaces tree "").map
                              (fun b => .dbInsertNs (String.mk m.g1) b)),
                     insert_namespaces (insert_apk db m) (String.mk m.g1)
                       (extract_namespaces tree ""), none) := by
                simp [processEntry, hm, process_apk, hc]
              rw [h1] at hud ⊢
              refine ⟨rfl, ?_, hud, ?_, by simp [insert_apk, insert_namespaces]⟩
              · simp [List.countP_cons, List.countP_append, List.countP_map,
                  Function.comp, List.countP_false]
              · intro i a b hi
                match i with
                | 0 => simp at hi
                | n + 1 => exact Nat.succ_pos n

/-- Witness for `identity_first` on a concrete well-formed entry. -/
theorem identity_first_witness :
    (processEntry
        ⟨"pkg-2021_02_03.apk", true,
          ⟨none, .exited 0 [], .ok [FS.dir "com" []]⟩⟩ emptyDB).1.head?
      = some (.dbInsertApk "pkg" "2021_02_03" "pkg-2021_02_03.apk") :=
  (identity_first
    ⟨"pkg-2021_02_03.apk", true, ⟨none, .exited 0 [], .ok [FS.dir "com" []]⟩⟩
    emptyDB
    ⟨"pkg-2021_02_03.apk".data, "pkg".data, [], "2021_02_03".data⟩
    (by decide) rfl).1

/-- The processing of one entry never emits a commit: neither the inserts
nor the loop body reach `config.db.commit()`. -/
theorem processEntry_no_commit (e : Entry) (db : DB) :
    Ev.commit ∉ (processEntry e db).1 := by
  rcases e with ⟨nm, isf, ⟨dex, conv, jar⟩⟩
  rcases hm : apkMatch0 nm.data with _ | m
  · simp [processEntry, hm]
  · cases isf with
    | false => simp [processEntry, hm]
    | true =>
        cases dex with
        | some xe => simp [processEntry, hm, process_apk]
        | none =>
            cases hc : convert_to_jar conv tmpName with
            | error ce => simp [processEntry, hm, process_apk, hc]
            | ok j =>
                cases jar with
                | error xe => simp [processEntry, hm, process_apk, hc]
                | ok tree => simp [processEntry, hm, process_apk, hc]

theorem process_apks_no_commit (entries : List Entry) :
    ∀ db : DB, Ev.commit ∉ (process_apks entries db).1 := by
  induction entries with
  | nil => intro db; simp [process_apks]
  | cons e rest ih =>
      intro db
      have h0 := processEntry_no_commit e db
      rcases hpe : processEntry e db with ⟨tr, db1, exc⟩
      rw [hpe] at h0
      cases exc with
      | some xe => simpa [process_apks, hpe] using h0
      | none =>
          have h2 := ih db1
          rcases hr : process_apks rest db1 with ⟨tr2, db2, exc2⟩
          rw [hr] at h2
          simp [process_apks, hpe, hr, List.mem_append]
          exact ⟨h0, h2⟩

/-- C10: neither the insert operations nor the batch loop commits the
store; `main` commits exactly once, after every entry has been attempted,
so a completed run durably persists exactly the batch's rows while a run
aborted mid-batch durably persists no rows at all. -/
theorem whole_run_commit (entries : List Entry) :
    ((process_apks entries emptyDB).1.count .commit = 0)
  ∧ main_model entries
      = (if (process_apks entries emptyDB).2.2 = none
         then ((process_apks entries emptyDB).1 ++ [.commit],
               (process_apks entries emptyDB).2.1)
         else ((process_apks entries emptyDB).1, emptyDB))
  ∧ ((main_model entries).1.count .commit
      = if (process_apks entries emptyDB).2.2 = none then 1 else 0) := by
  have h0 := process_apks_no_commit entries emptyDB
  have hcount : (process_apks entries emptyDB).1.count .commit = 0 :=
    List.count_eq_zero.mpr h0
  refine ⟨hcount, ?_, ?_⟩ <;>
    rcases hp : process_apks entries emptyDB with ⟨tr, dbf, exc⟩ <;>
    rw [hp] at hcount <;>
    cases exc <;>
    simp [main_model, hp, List.count_append, hcount]

end ApkAnalyzer
